import Mathlib

/-!
Verification of the processing-flow canvas of the unstructured-platform
frontend (ProcessingFlowCanvas.tsx and the node configuration forms).

The TypeScript source is shallowly embedded: the React component state
(nodes, edges, selected node, viewport, the module-level id counter and
the isExecutingFlow flag) becomes an explicit record, the event handlers
become pure state-transition functions, and the browser facilities the
code calls (localStorage plus JSON.stringify/JSON.parse, the reactflow
addEdge helper, the parseInt/parseFloat builtins) are modelled at the
level of the values they exchange.  JavaScript numbers are modelled
exactly (as rationals together with NaN and the infinities); JavaScript
objects become association lists that keep insertion order, as the
language guarantees for string keys.
-/

/-- A JavaScript number: NaN, a signed infinity, or a finite value
(modelled exactly as a rational; the claims never exercise double
rounding). -/
inductive JSNum where
  | nan
  | inf (neg : Bool)
  | q (val : ℚ)
deriving DecidableEq, Repr

/-- Numeric value of a list of decimal digit characters, most significant
first. -/
def digitsToNat (ds : List Char) : Nat :=
  ds.foldl (fun a c => a * 10 + (c.toNat - 48)) 0

/-- The ECMAScript parseInt builtin at radix 10: skip leading whitespace,
read an optional sign and then the longest prefix of decimal digits; NaN
when that prefix is empty. -/
def parseIntJS (s : String) : JSNum :=
  let cs := s.data.dropWhile (fun c => c.isWhitespace)
  let neg : Bool := match cs with
    | c :: _ => c == '-'
    | [] => false
  let cs2 : List Char := match cs with
    | '-' :: t => t
    | '+' :: t => t
    | t => t
  let ds := cs2.takeWhile (fun c => c.isDigit)
  if ds.isEmpty then JSNum.nan
  else
    let n : ℚ := (digitsToNat ds : ℚ)
    JSNum.q (if neg then -n else n)

/-- Scale a mantissa by a signed power of ten (the exponent part of a
decimal literal). -/
def applyExponent (eneg : Bool) (e : Nat) (m : ℚ) : ℚ :=
  if eneg then m / 10 ^ e else m * 10 ^ e

/-- The ECMAScript parseFloat builtin: skip leading whitespace, read an
optional sign and then the longest prefix forming a decimal literal
(digits, an optional fraction, an optional exponent, or the word
Infinity); NaN when no such prefix exists. -/
def parseFloatJS (s : String) : JSNum :=
  let cs := s.data.dropWhile (fun c => c.isWhitespace)
  let neg : Bool := match cs with
    | c :: _ => c == '-'
    | [] => false
  let cs2 : List Char := match cs with
    | '-' :: t => t
    | '+' :: t => t
    | t => t
  if cs2.take 8 = ['I', 'n', 'f', 'i', 'n', 'i', 't', 'y'] then JSNum.inf neg
  else
    let intDs := cs2.takeWhile (fun c => c.isDigit)
    let rest := cs2.dropWhile (fun c => c.isDigit)
    let fracDs : List Char := match rest with
      | '.' :: t => t.takeWhile (fun c => c.isDigit)
      | _ => []
    let rest2 : List Char := match rest with
      | '.' :: t => t.dropWhile (fun c => c.isDigit)
      | r => r
    if intDs.isEmpty && fracDs.isEmpty then JSNum.nan
    else
      let mantissa : ℚ := (digitsToNat intDs : ℚ) + (digitsToNat fracDs : ℚ) / 10 ^ fracDs.length
      let value : ℚ := match rest2 with
        | e :: t =>
          if e == 'e' || e == 'E' then
            let et : Bool × List Char := match t with
              | '-' :: u => (true, u)
              | '+' :: u => (false, u)
              | u => (false, u)
            let eds := et.2.takeWhile (fun c => c.isDigit)
            if eds.isEmpty then mantissa else applyExponent et.1 (digitsToNat eds) mantissa
          else mantissa
        | [] => mantissa
      JSNum.q (if neg then -value else value)

/-- A value stored in a node configuration object (the data field of a
reactflow node): the configuration forms only ever store strings,
booleans, numbers, undefined, and - after a load - null. -/
inductive CfgValue where
  | undefv
  | nullv
  | b (v : Bool)
  | n (v : JSNum)
  | s (v : String)
deriving DecidableEq, Repr

/-- A JavaScript configuration object: an insertion-ordered association
list, as JavaScript guarantees for string-keyed properties. -/
abbrev CfgObj := List (String × CfgValue)

/-- Property read returning none for a missing key. -/
def objLookup (o : CfgObj) (k : String) : Option CfgValue :=
  (o.find? (fun kv => kv.1 == k)).map (fun kv => kv.2)

/-- JavaScript property read: a missing key reads as undefined. -/
def jsLookup (o : CfgObj) (k : String) : CfgValue :=
  (objLookup o k).getD CfgValue.undefv

/-- JavaScript property update (a spread with one computed key, or an
assignment): an existing key is overwritten in place, a new key is
appended at the end.  JavaScript objects never hold a key twice, so
replacing the first occurrence models the update exactly. -/
def objSet : CfgObj → String → CfgValue → CfgObj
  | [], k, v => [(k, v)]
  | kv :: rest, k, v =>
    if kv.1 == k then (k, v) :: rest
    else kv :: objSet rest k v

/-- The JavaScript double-spread of two objects, as in the source
expression spreading node.data and then newData: keys of the update win
over keys of the base, later duplicate keys of the update win over
earlier ones, key order follows first insertion. -/
def objMerge (base upd : CfgObj) : CfgObj :=
  upd.foldl (fun acc kv => objSet acc kv.1 kv.2) base

/-- A parsed JSON value extended with undefined, which is what a missing
property reads as and what JSON.stringify discards.  Used for the
persisted localStorage slot, whose content is arbitrary. -/
inductive JValue where
  | undefv
  | jnull
  | jbool (v : Bool)
  | jnum (v : JSNum)
  | jstr (v : String)
  | jarr (elems : List JValue)
  | jobj (fields : List (String × JValue))
deriving Repr

/-- JavaScript truthiness: undefined, null, false, 0, NaN and the empty
string are falsy, everything else (arrays and objects included) is
truthy. -/
def JValue.truthy : JValue → Bool
  | .undefv => false
  | .jnull => false
  | .jbool v => v
  | .jnum .nan => false
  | .jnum (.inf _) => true
  | .jnum (.q x) => decide (x ≠ 0)
  | .jstr v => decide (v ≠ "")
  | .jarr _ => true
  | .jobj _ => true

/-- JavaScript property read on a parsed value: a key of an object, and
undefined on a missing key or a non-object.  (The source only reads
properties after a truthiness guard, so the null case is never hit
there.) -/
def jGet (v : JValue) (k : String) : JValue :=
  match v with
  | .jobj kvs =>
    match kvs.find? (fun kv => kv.1 == k) with
    | some kv => kv.2
    | none => .undefv
  | _ => .undefv

/-- Keys whose value is undefined are dropped by JSON.stringify. -/
def isUndefJ : JValue → Bool
  | .undefv => true
  | _ => false

/-- JSON.stringify on the fields of an object literal: properties whose
value is undefined are omitted. -/
def dropUndefFields (kvs : List (String × JValue)) : List (String × JValue) :=
  kvs.filter (fun kv => !isUndefJ kv.2)

/-- An x/y position of a reactflow node. -/
structure Pos where
  x : ℚ
  y : ℚ
deriving DecidableEq, Repr, Inhabited

/-- A reactflow viewport, as returned by getViewport and persisted with
the flow. -/
structure Viewport where
  x : ℚ
  y : ℚ
  zoom : ℚ
deriving DecidableEq, Repr

/-- A reactflow node as this application builds them: id, an optional
type string, a position, the data object holding the label and the
configuration, and the optional sourcePosition/targetPosition
presentation fields set by addNode.  none models an absent or undefined
property. -/
structure FlowNode where
  id : String
  type : Option String
  position : Pos
  data : Option CfgObj
  sourcePosition : Option String
  targetPosition : Option String
deriving DecidableEq, Repr, Inhabited

/-- A reactflow edge as built by the onConnect handler via addEdge: the
generated id, the endpoints, the (null for this application) handle ids,
and the styling fields the handler spreads in.  For the handle fields
none models null or undefined, which the reactflow helpers deliberately
identify through their falsiness check. -/
structure FlowEdge where
  id : String
  source : String
  target : String
  sourceHandle : Option String
  targetHandle : Option String
  type : Option String
  animated : Option Bool
  markerEnd : Option String
deriving DecidableEq, Repr

/-- A reactflow Connection delivered to onConnect when the user finishes
dragging a connection: nullable endpoints and handle ids. -/
structure Connection where
  source : Option String
  target : Option String
  sourceHandle : Option String
  targetHandle : Option String
deriving DecidableEq, Repr

/-- The nullable string fields of a connection are checked for JavaScript
falsiness (null, undefined or empty) by the reactflow helpers. -/
def optFalsy : Option String → Bool
  | none => true
  | some s => s == ""

/-- reactflow connectionExists: an equivalent edge is already present.
Handles are compared with strict equality, except that all falsy handle
values are identified. -/
def connectionExists (e : FlowEdge) (edges : List FlowEdge) : Bool :=
  edges.any (fun el =>
    el.source == e.source && el.target == e.target &&
    (el.sourceHandle == e.sourceHandle || (optFalsy el.sourceHandle && optFalsy e.sourceHandle)) &&
    (el.targetHandle == e.targetHandle || (optFalsy el.targetHandle && optFalsy e.targetHandle)))

/-- reactflow getEdgeId: the generated id of an edge built from a
connection. -/
def getEdgeId (c : Connection) : String :=
  "reactflow__edge-" ++ c.source.getD "" ++ c.sourceHandle.getD "" ++ "-" ++
    c.target.getD "" ++ c.targetHandle.getD ""

/-- The edge object the onConnect handler passes to addEdge: the
connection spread together with type smoothstep, animated true and a
closed-arrow markerEnd, and the id addEdge generates for a connection. -/
def edgeOfConnection (c : Connection) : FlowEdge :=
  { id := getEdgeId c
    source := c.source.getD ""
    target := c.target.getD ""
    sourceHandle := c.sourceHandle
    targetHandle := c.targetHandle
    type := some "smoothstep"
    animated := some true
    markerEnd := some "arrowclosed" }

/-- reactflow addEdge as called by onConnect: ignore the connection when
an endpoint is falsy or an equivalent connection already exists,
otherwise append the new styled edge at the end. -/
def onConnect (c : Connection) (edges : List FlowEdge) : List FlowEdge :=
  if optFalsy c.source || optFalsy c.target then edges
  else
    let e := edgeOfConnection c
    if connectionExists e edges then edges else edges ++ [e]

/-- The state of the ProcessingFlowCanvas component together with the
module-level id counter: the nodes and edges state, the selected node,
whether the reactflow instance has been delivered by onInit, the
viewport held by that instance, the isExecutingFlow flag, and the
counter behind getId. -/
structure CanvasState where
  nodes : List FlowNode
  edges : List FlowEdge
  selectedNode : Option FlowNode
  hasInstance : Bool
  viewport : Viewport
  isExecutingFlow : Bool
  idCounter : Nat
deriving DecidableEq, Repr

/-- The two initial nodes of the canvas. -/
def initialNodes : List FlowNode :=
  [{ id := "input-1"
     type := some "inputNode"
     position := { x := 50, y := 150 }
     data := some [("label", CfgValue.s "Document Input")]
     sourcePosition := none
     targetPosition := none },
   { id := "output-1"
     type := some "outputNode"
     position := { x := 650, y := 150 }
     data := some [("label", CfgValue.s "Processed Output")]
     sourcePosition := none
     targetPosition := none }]

/-- The component state at mount in a fresh page: initial nodes, no
edges, nothing selected, no reactflow instance yet, the default
viewport, not executing, and the module counter at zero. -/
def initialCanvasState : CanvasState :=
  { nodes := initialNodes
    edges := []
    selectedNode := none
    hasInstance := false
    viewport := { x := 0, y := 0, zoom := 1 }
    isExecutingFlow := false
    idCounter := 0 }

/-- getId: the id the module-level counter produces, dndnode_ followed by
the decimal counter value. -/
def getIdStr (c : Nat) : String :=
  "dndnode_" ++ Nat.repr c

/-- The node addNode builds for the current counter value: fresh id, the
requested type, a random position (the two Math.random() draws are
passed in), a data object holding only the label, and right/left
handle positions. -/
def mkNewNode (c : Nat) (ntype label : String) (rx ry : ℚ) : FlowNode :=
  { id := getIdStr c
    type := some ntype
    position := { x := rx * 400 + 100, y := ry * 200 + 50 }
    data := some [("label", CfgValue.s label)]
    sourcePosition := some "right"
    targetPosition := some "left" }

/-- The addNode handler: build the new node from the current counter and
append it to the nodes state; the counter is incremented by getId. -/
def addNode (st : CanvasState) (ntype label : String) (rx ry : ℚ) : CanvasState :=
  { st with
    nodes := st.nodes ++ [mkNewNode st.idCounter ntype label rx ry]
    idCounter := st.idCounter + 1 }

/-- The update applied to one node by handleNodeDataChange: spread the
existing data (an absent data object spreads to the empty object) and
then the new data. -/
def mergeNodeData (n : FlowNode) (newData : CfgObj) : FlowNode :=
  { n with data := some (objMerge (n.data.getD []) newData) }

/-- handleNodeDataChange: map over the nodes, merging newData into the
data of every node whose id matches, and refresh the selected node the
same way; nodes with other ids and the edges are untouched. -/
def handleNodeDataChange (st : CanvasState) (nodeId : String) (newData : CfgObj) : CanvasState :=
  { st with
    nodes := st.nodes.map (fun n => if n.id == nodeId then mergeNodeData n newData else n)
    selectedNode := st.selectedNode.map
      (fun n => if n.id == nodeId then mergeNodeData n newData else n) }

/-- Apply the onConnect handler to the component state. -/
def connectState (st : CanvasState) (c : Connection) : CanvasState :=
  { st with edges := onConnect c st.edges }

/-- One node of the execution payload built by executeFlow: exactly the
three properties id, type and config. -/
structure SerializedNode where
  id : String
  type : Option String
  config : CfgObj
deriving DecidableEq, Repr, Inhabited

/-- One edge of the execution payload: exactly id, source and target. -/
structure SerializedEdge where
  id : String
  source : String
  target : String
deriving DecidableEq, Repr

/-- The execution payload executeFlow posts to the backend. -/
structure FlowToExecute where
  nodes : List SerializedNode
  edges : List SerializedEdge
deriving DecidableEq, Repr

/-- The node serialization inside executeFlow: id and type are copied and
config is the data object, defaulted to the empty object when data is
absent. -/
def serializeNode (n : FlowNode) : SerializedNode :=
  { id := n.id, type := n.type, config := n.data.getD [] }

/-- The edge serialization inside executeFlow: id, source and target are
copied. -/
def serializeEdge (e : FlowEdge) : SerializedEdge :=
  { id := e.id, source := e.source, target := e.target }

/-- The flowToExecute object executeFlow builds from the current nodes
and edges state. -/
def flowToExecute (nodes : List FlowNode) (edges : List FlowEdge) : FlowToExecute :=
  { nodes := nodes.map serializeNode, edges := edges.map serializeEdge }

/-- JSON.stringify of one configuration value.  NaN and the infinities
have no JSON representation and stringify as null; undefined is handled
by the caller, which drops the key. -/
def cfgValueToJ : CfgValue → JValue
  | .undefv => .undefv
  | .nullv => .jnull
  | .b v => .jbool v
  | .n .nan => .jnull
  | .n (.inf _) => .jnull
  | .n (.q x) => .jnum (.q x)
  | .s v => .jstr v

/-- JSON.stringify of a data object: each value is stringified and keys
with an undefined value are dropped. -/
def cfgObjToJ (o : CfgObj) : JValue :=
  .jobj (dropUndefFields (o.map (fun kv => (kv.1, cfgValueToJ kv.2))))

/-- A nullable string property as JSON.stringify sees it. -/
def optStrToJ : Option String → JValue
  | none => .undefv
  | some s => .jstr s

/-- JSON form of a position. -/
def posToJ (p : Pos) : JValue :=
  .jobj [("x", .jnum (.q p.x)), ("y", .jnum (.q p.y))]

/-- JSON form of a viewport. -/
def viewportToJ (vp : Viewport) : JValue :=
  .jobj [("x", .jnum (.q vp.x)), ("y", .jnum (.q vp.y)), ("zoom", .jnum (.q vp.zoom))]

/-- JSON.stringify of a node of this application: the fields of the node
object with undefined-valued ones dropped. -/
def nodeToJ (n : FlowNode) : JValue :=
  .jobj (dropUndefFields
    [("id", .jstr n.id),
     ("type", optStrToJ n.type),
     ("position", posToJ n.position),
     ("data", match n.data with | none => .undefv | some o => cfgObjToJ o),
     ("sourcePosition", optStrToJ n.sourcePosition),
     ("targetPosition", optStrToJ n.targetPosition)])

/-- JSON.stringify of an edge of this application.  The handle ids of an
edge built by onConnect hold null (not undefined), so they serialize to
null rather than being dropped; markerEnd is the object holding the
marker type. -/
def edgeToJ (e : FlowEdge) : JValue :=
  .jobj (dropUndefFields
    [("id", .jstr e.id),
     ("source", .jstr e.source),
     ("target", .jstr e.target),
     ("sourceHandle", match e.sourceHandle with | none => .jnull | some s => .jstr s),
     ("targetHandle", match e.targetHandle with | none => .jnull | some s => .jstr s),
     ("type", optStrToJ e.type),
     ("animated", match e.animated with | none => .undefv | some v => .jbool v),
     ("markerEnd", match e.markerEnd with | none => .undefv | some s => .jobj [("type", .jstr s)])])

/-- The flowState object saveFlowWrapper stringifies: current nodes,
edges and viewport. -/
def flowStateToJ (nodes : List FlowNode) (edges : List FlowEdge) (vp : Viewport) : JValue :=
  .jobj [("nodes", .jarr (nodes.map nodeToJ)),
         ("edges", .jarr (edges.map edgeToJ)),
         ("viewport", viewportToJ vp)]

/-- The persisted localStorage slot: none when absent, some none when
present but not valid JSON (JSON.parse throws), some (some v) when it
parses to v. -/
abbrev StorageSlot := Option (Option JValue)

/-- What saveFlowWrapper did. -/
inductive SaveOutcome where
  | noInstance
  | saved
deriving DecidableEq, Repr

/-- saveFlowWrapper: without a reactflow instance it only shows an error
toast and leaves the slot alone; otherwise it overwrites the slot with
the stringified current nodes, edges and viewport. -/
def saveFlowWrapper (st : CanvasState) (slot : StorageSlot) : StorageSlot × SaveOutcome :=
  if st.hasInstance then
    (some (some (flowStateToJ st.nodes st.edges st.viewport)), SaveOutcome.saved)
  else (slot, SaveOutcome.noInstance)

/-- The observable outcome of loadFlowWrapper: the missing-slot toast,
the error toast (JSON.parse threw or the truthiness validation failed),
or acceptance of the parsed nodes, edges and viewport values. -/
inductive LoadOutcome where
  | noSaved
  | loadError
  | loaded (ns es vp : JValue)
deriving Repr

/-- The control flow of loadFlowWrapper on the slot content: absent slot
reports noSaved; an unparseable slot reports loadError; a parsed value
is accepted exactly when it and its nodes, edges and viewport properties
are all truthy, otherwise loadError.  The accepted property values are
not validated any further. -/
def loadFlow (slot : StorageSlot) : LoadOutcome :=
  match slot with
  | none => LoadOutcome.noSaved
  | some none => LoadOutcome.loadError
  | some (some v) =>
    if v.truthy && (jGet v "nodes").truthy && (jGet v "edges").truthy && (jGet v "viewport").truthy
    then LoadOutcome.loaded (jGet v "nodes") (jGet v "edges") (jGet v "viewport")
    else LoadOutcome.loadError

/-- Read back a configuration value from persisted JSON.  Arrays and
objects never occur as configuration values in this application; a slot
holding one falls outside the typed model and the decoder rejects it. -/
def decodeCfgValue : JValue → Option CfgValue
  | .jnull => some CfgValue.nullv
  | .jbool v => some (CfgValue.b v)
  | .jnum v => some (CfgValue.n v)
  | .jstr v => some (CfgValue.s v)
  | _ => none

/-- Read back the entries of a persisted data object. -/
def decodeCfgEntries : List (String × JValue) → Option CfgObj
  | [] => some []
  | kv :: rest => do
    let v ← decodeCfgValue kv.2
    let tail ← decodeCfgEntries rest
    pure ((kv.1, v) :: tail)

/-- Read back an optional data object: an absent property stays absent. -/
def decodeData : JValue → Option (Option CfgObj)
  | .undefv => some none
  | .jobj kvs => (decodeCfgEntries kvs).map some
  | _ => none

/-- Read back an optional string property: an absent property stays
absent. -/
def decodeOptStr : JValue → Option (Option String)
  | .undefv => some none
  | .jstr s => some (some s)
  | _ => none

/-- Read back a handle id: onConnect stores null there, and an absent
property is identified with null. -/
def decodeHandle : JValue → Option (Option String)
  | .undefv => some none
  | .jnull => some none
  | .jstr s => some (some s)
  | _ => none

/-- Read back a finite number. -/
def decodeRat : JValue → Option ℚ
  | .jnum (.q x) => some x
  | _ => none

/-- Read back a position object. -/
def decodePos (v : JValue) : Option Pos := do
  let x ← decodeRat (jGet v "x")
  let y ← decodeRat (jGet v "y")
  pure { x := x, y := y }

/-- Read back a viewport object. -/
def decodeViewport (v : JValue) : Option Viewport := do
  let x ← decodeRat (jGet v "x")
  let y ← decodeRat (jGet v "y")
  let zoom ← decodeRat (jGet v "zoom")
  pure { x := x, y := y, zoom := zoom }

/-- Read back an optional animated flag. -/
def decodeAnimated : JValue → Option (Option Bool)
  | .undefv => some none
  | .jbool v => some (some v)
  | _ => none

/-- Read back an optional markerEnd object. -/
def decodeMarkerEnd : JValue → Option (Option String)
  | .undefv => some none
  | .jobj kvs =>
    match jGet (.jobj kvs) "type" with
    | .jstr s => some (some s)
    | _ => none
  | _ => none

/-- Read back a persisted node of this application. -/
def decodeNode (v : JValue) : Option FlowNode := do
  let id ← match jGet v "id" with | .jstr s => some s | _ => none
  let ntype ← decodeOptStr (jGet v "type")
  let pos ← decodePos (jGet v "position")
  let data ← decodeData (jGet v "data")
  let sp ← decodeOptStr (jGet v "sourcePosition")
  let tp ← decodeOptStr (jGet v "targetPosition")
  pure { id := id, type := ntype, position := pos, data := data,
         sourcePosition := sp, targetPosition := tp }

/-- Read back a persisted edge of this application. -/
def decodeEdge (v : JValue) : Option FlowEdge := do
  let id ← match jGet v "id" with | .jstr s => some s | _ => none
  let src ← match jGet v "source" with | .jstr s => some s | _ => none
  let tgt ← match jGet v "target" with | .jstr s => some s | _ => none
  let sh ← decodeHandle (jGet v "sourceHandle")
  let th ← decodeHandle (jGet v "targetHandle")
  let etype ← decodeOptStr (jGet v "type")
  let anim ← decodeAnimated (jGet v "animated")
  let me ← decodeMarkerEnd (jGet v "markerEnd")
  pure { id := id, source := src, target := tgt, sourceHandle := sh, targetHandle := th,
         type := etype, animated := anim, markerEnd := me }

/-- Read back a list of persisted nodes. -/
def decodeNodeList : List JValue → Option (List FlowNode)
  | [] => some []
  | v :: vs => do
    let n ← decodeNode v
    let ns ← decodeNodeList vs
    pure (n :: ns)

/-- Read back a list of persisted edges. -/
def decodeEdgeList : List JValue → Option (List FlowEdge)
  | [] => some []
  | v :: vs => do
    let e ← decodeEdge v
    let es ← decodeEdgeList vs
    pure (e :: es)

/-- Read back the accepted nodes value. -/
def decodeNodes : JValue → Option (List FlowNode)
  | .jarr xs => decodeNodeList xs
  | _ => none

/-- Read back the accepted edges value. -/
def decodeEdges : JValue → Option (List FlowEdge)
  | .jarr xs => decodeEdgeList xs
  | _ => none

/-- loadFlowWrapper applied to the component state.  On the noSaved and
loadError outcomes the source returns before touching any state, so the
state is returned unchanged.  On the loaded outcome the source stores
the accepted raw values with setNodes/setEdges and, when a reactflow
instance is present, setViewport; this typed wrapper decodes them, and
answers none for an accepted payload whose values do not decode to
application-shaped nodes/edges/viewport - such a state is representable
in JavaScript but outside this typed model, and claims about those
payloads are stated on loadFlow directly. -/
def loadFlowWrapper (slot : StorageSlot) (st : CanvasState) : Option CanvasState :=
  match loadFlow slot with
  | LoadOutcome.noSaved => some st
  | LoadOutcome.loadError => some st
  | LoadOutcome.loaded ns es vp =>
    match decodeNodes ns, decodeEdges es, decodeViewport vp with
    | some nodes, some edges, some viewport =>
      some { st with
             nodes := nodes
             edges := edges
             viewport := if st.hasInstance then viewport else st.viewport }
    | _, _, _ => none

/-- handleChange of ChunkNodeConfigForm (and of the other node forms,
which share the shape): spread the form data with one computed key and
hand the result to both setFormData and onChange. -/
def chunkHandleChange (fd : CfgObj) (field : String) (v : CfgValue) : CfgObj :=
  objSet fd field v

/-- handleNumberChange of ChunkNodeConfigForm: the empty string stores
undefined, any other string stores the raw parseInt result - there is no
NaN guard in this form. -/
def chunkHandleNumberChange (fd : CfgObj) (field : String) (value : String) : CfgObj :=
  chunkHandleChange fd field
    (if value = "" then CfgValue.undefv else CfgValue.n (parseIntJS value))

/-- The showByTitleParams flag of ChunkNodeConfigForm: strict equality of
the chunkingStrategy property with the by_title string. -/
def showByTitleParams (fd : CfgObj) : Bool :=
  jsLookup fd "chunkingStrategy" == CfgValue.s "by_title"

/-- The value the combine-text-under-n-chars input displays: the empty
string when the property is undefined, the stored value otherwise. -/
def chunkCombineDisplay (fd : CfgObj) : CfgValue :=
  if jsLookup fd "chunkCombineTextUnderNChars" == CfgValue.undefv then CfgValue.s ""
  else jsLookup fd "chunkCombineTextUnderNChars"

/-- The checked value of the multipage-sections switch of
ChunkNodeConfigForm: true when the property is undefined, the stored
value otherwise. -/
def chunkMultipageChecked (fd : CfgObj) : CfgValue :=
  if jsLookup fd "chunkMultipageSections" == CfgValue.undefv then CfgValue.b true
  else jsLookup fd "chunkMultipageSections"

/-- The checked value of the pdf-infer-table-structure switch of
PartitionNodeConfigForm: true when the property is undefined, the stored
value otherwise. -/
def partitionPdfInferChecked (fd : CfgObj) : CfgValue :=
  if jsLookup fd "pdfInferTableStructure" == CfgValue.undefv then CfgValue.b true
  else jsLookup fd "pdfInferTableStructure"

/-- handleNumericChange of ExtractLLMNodeConfigForm: the empty string
stores undefined; otherwise the parseFloat result is stored only when it
is not NaN, and a NaN parse leaves the form data untouched. -/
def extractLLMHandleNumericChange (fd : CfgObj) (field : String) (value : String) : CfgObj :=
  let numValue : CfgValue :=
    if value = "" then CfgValue.undefv else CfgValue.n (parseFloatJS value)
  if value = "" ∨ (value ≠ "" ∧ parseFloatJS value ≠ JSNum.nan) then
    objSet fd field numValue
  else fd

/-- handleNumberValueChange of ProcessingConfiguration: the empty string
stores undefined; otherwise the parseInt result is stored only when it
is not NaN, and a NaN parse leaves the configuration untouched. -/
def processingHandleNumberValueChange (cfg : CfgObj) (key : String) (value : String) : CfgObj :=
  let numValue : CfgValue :=
    if value = "" then CfgValue.undefv else CfgValue.n (parseIntJS value)
  if value = "" ∨ (value ≠ "" ∧ parseIntJS value ≠ JSNum.nan) then
    objSet cfg key numValue
  else cfg

/-- The user-interface events that drive the execution controller: a
click on the Execute Flow button, and the settling of an in-flight
request (a response of either kind or a network failure - all paths end
in the finally block). -/
inductive ExecEvent where
  | clickExecute
  | settle
deriving DecidableEq, Repr

/-- The execution controller state: the isExecutingFlow flag that
disables the button, together with the number of submissions currently
in flight (an observer count, not a program variable). -/
structure ExecCtl where
  isExecutingFlow : Bool
  inFlight : Nat
deriving DecidableEq, Repr

/-- The controller at mount: not executing, nothing in flight. -/
def execInit : ExecCtl :=
  { isExecutingFlow := false, inFlight := 0 }

/-- One controller step.  A click on a disabled button is discarded by
the browser, so while isExecutingFlow holds a click leaves the state
unchanged; an enabled click enters executeFlow, which immediately sets
isExecutingFlow and issues the request.  When an in-flight request
settles, the finally block clears isExecutingFlow. -/
def execStep (s : ExecCtl) : ExecEvent → ExecCtl
  | ExecEvent.clickExecute =>
    if s.isExecutingFlow then s
    else { isExecutingFlow := true, inFlight := s.inFlight + 1 }
  | ExecEvent.settle =>
    if s.inFlight = 0 then s
    else { isExecutingFlow := false, inFlight := s.inFlight - 1 }

/-- Run the controller over a sequence of events. -/
def execRun (events : List ExecEvent) : ExecCtl :=
  events.foldl execStep execInit

/-- One addNode invocation: the node kind and label of the clicked
toolbar button and the two Math.random() draws. -/
structure AddNodeCall where
  ntype : String
  label : String
  rx : ℚ
  ry : ℚ

/-- Apply a sequence of addNode invocations to a state. -/
def applyAddNodes (st : CanvasState) : List AddNodeCall → CanvasState
  | [] => st
  | c :: cs => applyAddNodes (addNode st c.ntype c.label c.rx c.ry) cs

/-- The last value an update object assigns to a key, if any: the value
a JavaScript spread leaves at that key. -/
def lastVal : CfgObj → String → Option CfgValue
  | [], _ => none
  | kv :: rest, k =>
    match lastVal rest k with
    | some v => some v
    | none => if kv.1 == k then some kv.2 else none

theorem objLookup_objSet_self (o : CfgObj) (k : String) (v : CfgValue) :
    objLookup (objSet o k v) k = some v := by
  induction o with
  | nil => simp [objSet, objLookup, List.find?]
  | cons kv rest ih =>
    by_cases hh : (kv.1 == k) = true
    · simp [objSet, objLookup, List.find?, hh]
    · simp only [Bool.not_eq_true] at hh
      simpa [objSet, objLookup, List.find?, hh] using ih

theorem objLookup_objSet_ne (o : CfgObj) (k k2 : String) (v : CfgValue)
    (h : (k == k2) = false) : objLookup (objSet o k v) k2 = objLookup o k2 := by
  induction o with
  | nil => simp [objSet, objLookup, List.find?, h]
  | cons kv rest ih =>
    by_cases hh : (kv.1 == k) = true
    · have hk : kv.1 = k := by simpa using hh
      simp [objSet, objLookup, List.find?, hh, h, hk]
    · simp only [Bool.not_eq_true] at hh
      by_cases h2 : (kv.1 == k2) = true
      · simp [objSet, objLookup, List.find?, hh, h2]
      · simp only [Bool.not_eq_true] at h2
        simpa [objSet, objLookup, List.find?, hh, h2] using ih

theorem objLookup_objMerge (base upd : CfgObj) (k : String) :
    objLookup (objMerge base upd) k =
      match lastVal upd k with
      | some v => some v
      | none => objLookup base k := by
  induction upd generalizing base with
  | nil => rfl
  | cons kv rest ih =>
    show objLookup (objMerge (objSet base kv.1 kv.2) rest) k = _
    rw [ih]
    cases hrest : lastVal rest k with
    | some v => simp [lastVal, hrest]
    | none =>
      by_cases hk : (kv.1 == k) = true
      · have hkk : kv.1 = k := by simpa using hk
        subst hkk
        simp [lastVal, hrest, objLookup_objSet_self base kv.1 kv.2]
      · simp only [Bool.not_eq_true] at hk
        simp [lastVal, hrest, hk, objLookup_objSet_ne base kv.1 k kv.2 hk]

theorem map_update_id (l : List FlowNode) (nodeId : String) (newData : CfgObj)
    (h : ∀ n ∈ l, n.id ≠ nodeId) :
    l.map (fun n => if n.id == nodeId then mergeNodeData n newData else n) = l := by
  induction l with
  | nil => rfl
  | cons hd tl ih =>
    have h1 : (hd.id == nodeId) = false := by
      simpa using h hd (List.mem_cons_self hd tl)
    simp only [List.map_cons, h1, if_false, List.cons.injEq, true_and, Bool.false_eq_true]
    exact ih (fun n hn => h n (List.mem_cons_of_mem hd hn))

/-- Claim C7: handleNodeDataChange shallow-merges the new data into the
data of every node whose id matches, with keys of the new data winning
over stored keys and later assignments winning over earlier ones; when
no node carries the id, the nodes are returned unchanged, and the edges
are never touched.  The function is total, so no error is raised. -/
theorem updateNodeConfig_merge_and_noop (st : CanvasState) (nodeId : String) (newData : CfgObj) :
    (handleNodeDataChange st nodeId newData).edges = st.edges
    ∧ ((∀ n ∈ st.nodes, n.id ≠ nodeId) → (handleNodeDataChange st nodeId newData).nodes = st.nodes)
    ∧ (handleNodeDataChange st nodeId newData).nodes
        = st.nodes.map (fun n => if n.id == nodeId then mergeNodeData n newData else n)
    ∧ (∀ (n : FlowNode) (k : String),
        objLookup ((mergeNodeData n newData).data.getD []) k =
          match lastVal newData k with
          | some v => some v
          | none => objLookup (n.data.getD []) k) := by
  refine ⟨rfl, ?_, rfl, ?_⟩
  · intro h
    show st.nodes.map _ = st.nodes
    exact map_update_id st.nodes nodeId newData h
  · intro n k
    show objLookup (objMerge (n.data.getD []) newData) k = _
    exact objLookup_objMerge (n.data.getD []) newData k

theorem updateNodeConfig_merge_and_noop_witness :
    (handleNodeDataChange initialCanvasState "ghost" [("x", CfgValue.b true)]).edges
        = initialCanvasState.edges
    ∧ (handleNodeDataChange initialCanvasState "ghost" [("x", CfgValue.b true)]).nodes
        = initialCanvasState.nodes := by
  have h := updateNodeConfig_merge_and_noop initialCanvasState "ghost" [("x", CfgValue.b true)]
  exact ⟨h.1, h.2.1 (by decide)⟩

/-- The two observable states of the chunking-strategy scenario: the form
data after setting strategy by_title, entering 200 in the combine field
and switching to basic, and then the data after switching back to
by_title. -/
def chunkScenario (fd : CfgObj) : CfgObj × CfgObj :=
  let s1 := chunkHandleChange fd "chunkingStrategy" (CfgValue.s "by_title")
  let s2 := chunkHandleNumberChange s1 "chunkCombineTextUnderNChars" "200"
  let s3 := chunkHandleChange s2 "chunkingStrategy" (CfgValue.s "basic")
  (s3, chunkHandleChange s3 "chunkingStrategy" (CfgValue.s "by_title"))

/-- Claim C9: hidden conditional sub-fields keep their stored value.  In
the Chunk form, after strategy by_title and combine-under-n-chars 200,
switching to basic hides the field but the stored 200 survives, and
switching back to by_title shows the field again with the stored 200. -/
theorem chunk_hidden_field_retained (fd : CfgObj) :
    objLookup (chunkScenario fd).1 "chunkCombineTextUnderNChars" = some (CfgValue.n (JSNum.q 200))
    ∧ showByTitleParams (chunkScenario fd).1 = false
    ∧ objLookup (chunkScenario fd).2 "chunkCombineTextUnderNChars" = some (CfgValue.n (JSNum.q 200))
    ∧ showByTitleParams (chunkScenario fd).2 = true
    ∧ chunkCombineDisplay (chunkScenario fd).2 = CfgValue.n (JSNum.q 200) := by
  have h200 : parseIntJS "200" = JSNum.q 200 := by decide
  have hne : ("chunkingStrategy" == "chunkCombineTextUnderNChars") = false := by decide
  have hs2 : chunkHandleNumberChange (chunkHandleChange fd "chunkingStrategy" (CfgValue.s "by_title"))
      "chunkCombineTextUnderNChars" "200"
      = objSet (objSet fd "chunkingStrategy" (CfgValue.s "by_title"))
          "chunkCombineTextUnderNChars" (CfgValue.n (JSNum.q 200)) := by
    simp [chunkHandleNumberChange, chunkHandleChange, h200]
  have hcomb1 : objLookup (chunkScenario fd).1 "chunkCombineTextUnderNChars"
      = some (CfgValue.n (JSNum.q 200)) := by
    show objLookup (objSet _ "chunkingStrategy" (CfgValue.s "basic")) _ = _
    rw [show (chunkHandleNumberChange (chunkHandleChange fd "chunkingStrategy"
        (CfgValue.s "by_title")) "chunkCombineTextUnderNChars" "200" : CfgObj)
        = objSet (objSet fd "chunkingStrategy" (CfgValue.s "by_title"))
          "chunkCombineTextUnderNChars" (CfgValue.n (JSNum.q 200)) from hs2]
    rw [objLookup_objSet_ne _ _ _ _ hne]
    exact objLookup_objSet_self _ _ _
  have hstrat1 : objLookup (chunkScenario fd).1 "chunkingStrategy" = some (CfgValue.s "basic") :=
    objLookup_objSet_self _ _ _
  have hcomb2 : objLookup (chunkScenario fd).2 "chunkCombineTextUnderNChars"
      = some (CfgValue.n (JSNum.q 200)) := by
    show objLookup (objSet (chunkScenario fd).1 "chunkingStrategy" (CfgValue.s "by_title")) _ = _
    rw [objLookup_objSet_ne _ _ _ _ hne]
    exact hcomb1
  have hstrat2 : objLookup (chunkScenario fd).2 "chunkingStrategy" = some (CfgValue.s "by_title") :=
    objLookup_objSet_self _ _ _
  refine ⟨hcomb1, ?_, hcomb2, ?_, ?_⟩
  · simp [showByTitleParams, jsLookup, hstrat1]
  · simp [showByTitleParams, jsLookup, hstrat2]
  · simp [chunkCombineDisplay, jsLookup, hcomb2]

/-- Claim C8 counterexample: the Chunk form number handler has no NaN
guard, so the non-numeric input abc stores NaN in the configuration
instead of leaving the value undefined. -/
theorem chunk_number_handler_stores_nan :
    objLookup (chunkHandleNumberChange [] "chunkMaxCharacters" "abc") "chunkMaxCharacters"
      = some (CfgValue.n JSNum.nan) := by
  decide

/-- Claim C8 (amended): the empty input stores undefined in every
numeric handler; the ExtractLLM and ProcessingConfiguration handlers
carry a NaN guard and never store NaN (a non-numeric input leaves the
configuration untouched), but the Chunk form handler stores the raw
parseInt result, which is NaN for non-numeric input; the boolean
switches for chunkMultipageSections and pdfInferTableStructure display
as true whenever the stored value is unset. -/
theorem numeric_handlers_and_boolean_defaults (fd cfg : CfgObj) (field key value : String) :
    objLookup (chunkHandleNumberChange fd field "") field = some CfgValue.undefv
    ∧ (extractLLMHandleNumericChange fd field value = fd
       ∨ objLookup (extractLLMHandleNumericChange fd field value) field
           ≠ some (CfgValue.n JSNum.nan))
    ∧ (processingHandleNumberValueChange cfg key value = cfg
       ∨ objLookup (processingHandleNumberValueChange cfg key value) key
           ≠ some (CfgValue.n JSNum.nan))
    ∧ (jsLookup fd "chunkMultipageSections" = CfgValue.undefv →
        chunkMultipageChecked fd = CfgValue.b true)
    ∧ (jsLookup fd "pdfInferTableStructure" = CfgValue.undefv →
        partitionPdfInferChecked fd = CfgValue.b true) := by
  refine ⟨?_, ?_, ?_, ?_, ?_⟩
  · simp only [chunkHandleNumberChange, chunkHandleChange, if_pos rfl]
    exact objLookup_objSet_self fd field CfgValue.undefv
  · by_cases hv : value = ""
    · refine Or.inr ?_
      simp only [extractLLMHandleNumericChange, hv, if_pos rfl, true_or, if_true]
      rw [objLookup_objSet_self]
      simp
    · by_cases hn : parseFloatJS value = JSNum.nan
      · refine Or.inl ?_
        simp [extractLLMHandleNumericChange, hv, hn]
      · refine Or.inr ?_
        simp only [extractLLMHandleNumericChange, hv, if_neg hv, false_or]
        rw [if_pos ⟨hv, hn⟩]
        rw [objLookup_objSet_self]
        simp [hn]
  · by_cases hv : value = ""
    · refine Or.inr ?_
      simp only [processingHandleNumberValueChange, hv, if_pos rfl, true_or, if_true]
      rw [objLookup_objSet_self]
      simp
    · by_cases hn : parseIntJS value = JSNum.nan
      · refine Or.inl ?_
        simp [processingHandleNumberValueChange, hv, hn]
      · refine Or.inr ?_
        simp only [processingHandleNumberValueChange, hv, if_neg hv, false_or]
        rw [if_pos ⟨hv, hn⟩]
        rw [objLookup_objSet_self]
        simp [hn]
  · intro h
    simp [chunkMultipageChecked, h]
  · intro h
    simp [partitionPdfInferChecked, h]

theorem numeric_handlers_and_boolean_defaults_witness :
    objLookup (chunkHandleNumberChange [] "chunkMaxCharacters" "") "chunkMaxCharacters"
        = some CfgValue.undefv
    ∧ (extractLLMHandleNumericChange [] "ollamaTemperature" "abc" = ([] : CfgObj)
       ∨ objLookup (extractLLMHandleNumericChange [] "ollamaTemperature" "abc") "ollamaTemperature"
           ≠ some (CfgValue.n JSNum.nan))
    ∧ chunkMultipageChecked [] = CfgValue.b true := by
  have h := numeric_handlers_and_boolean_defaults [] [] "chunkMaxCharacters" "k" "v"
  have h2 := numeric_handlers_and_boolean_defaults [] [] "ollamaTemperature" "k" "abc"
  exact ⟨h.1, h2.2.1, h.2.2.2.1 (by decide)⟩

theorem execStep_flag_counts (s : ExecCtl) (e : ExecEvent)
    (h : s.inFlight = if s.isExecutingFlow = true then 1 else 0) :
    (execStep s e).inFlight = if (execStep s e).isExecutingFlow = true then 1 else 0 := by
  cases e with
  | clickExecute =>
    by_cases hx : s.isExecutingFlow = true
    · simpa [execStep, hx] using h
    · simp only [hx, if_false] at h
      simp [execStep, hx, h]
  | settle =>
    by_cases hz : s.inFlight = 0
    · simpa [execStep, hz] using h
    · by_cases hx : s.isExecutingFlow = true
      · simp only [hx, if_true] at h
        simp [execStep, hz, h]
      · simp only [hx, if_false] at h
        exact absurd h hz

theorem execRun_flag_counts (events : List ExecEvent) :
    ∀ s : ExecCtl, s.inFlight = (if s.isExecutingFlow = true then 1 else 0) →
      (events.foldl execStep s).inFlight
        = if (events.foldl execStep s).isExecutingFlow = true then 1 else 0 := by
  induction events with
  | nil => intro s h; simpa using h
  | cons e rest ih =>
    intro s h
    exact ih _ (execStep_flag_counts s e h)

/-- Claim C6: the execution controller never has two submissions in
flight.  Along every sequence of clicks and settlements from the mount
state, the in-flight count always matches the isExecutingFlow flag and
so never exceeds one; and a click arriving while isExecutingFlow holds
leaves the state exactly unchanged - the request is dropped by the
disabled button, not queued. -/
theorem exec_no_concurrent_submissions :
    (∀ events : List ExecEvent,
       (execRun events).inFlight
         = if (execRun events).isExecutingFlow = true then 1 else 0)
    ∧ (∀ events : List ExecEvent, (execRun events).inFlight ≤ 1)
    ∧ (∀ s : ExecCtl, s.isExecutingFlow = true → execStep s ExecEvent.clickExecute = s) := by
  have hmain : ∀ events : List ExecEvent,
      (execRun events).inFlight
        = if (execRun events).isExecutingFlow = true then 1 else 0 :=
    fun events => execRun_flag_counts events execInit (by simp [execInit])
  refine ⟨hmain, fun events => ?_, fun s hs => by simp [execStep, hs]⟩
  have h := hmain events
  by_cases hx : (execRun events).isExecutingFlow = true
  · simp [hx] at h
    omega
  · simp [hx] at h
    omega

theorem exec_no_concurrent_submissions_witness :
    execStep { isExecutingFlow := true, inFlight := 1 } ExecEvent.clickExecute
      = { isExecutingFlow := true, inFlight := 1 } :=
  exec_no_concurrent_submissions.2.2 { isExecutingFlow := true, inFlight := 1 } rfl

/-- Claim C1 counterexample: the execution serializer does not exclude
the label.  For the initial graph, the config of each serialized node is
the whole data object, and it carries the label key. -/
theorem serializer_keeps_label :
    (flowToExecute initialNodes []).nodes.map (fun sn => sn.config)
      = [[("label", CfgValue.s "Document Input")], [("label", CfgValue.s "Processed Output")]]
    ∧ objLookup ((flowToExecute initialNodes []).nodes.headI.config) "label"
      = some (CfgValue.s "Document Input") := by
  constructor
  · decide
  · decide

/-- Claim C1 (amended): executeFlow maps each node to exactly the triple
id, type and config, where config is the whole data object of the node
(the empty object when data is absent) - the label is not excluded, it
travels inside config - and maps each edge to exactly the triple id,
source and target; the payload carries nothing else per node or edge. -/
theorem serializer_shape (nodes : List FlowNode) (edges : List FlowEdge) :
    (flowToExecute nodes edges).nodes
        = nodes.map (fun n => { id := n.id, type := n.type, config := n.data.getD [] })
    ∧ (flowToExecute nodes edges).edges
        = edges.map (fun e => { id := e.id, source := e.source, target := e.target })
    ∧ (∀ n ∈ nodes, ∀ v : CfgValue,
        objLookup (n.data.getD []) "label" = some v →
          objLookup (serializeNode n).config "label" = some v) := by
  refine ⟨rfl, rfl, ?_⟩
  intro n _ v h
  simpa [serializeNode] using h

theorem serializer_shape_witness :
    (flowToExecute initialNodes []).nodes
        = initialNodes.map (fun n => { id := n.id, type := n.type, config := n.data.getD [] })
    ∧ objLookup (serializeNode (initialNodes.headI)).config "label"
        = some (CfgValue.s "Document Input") := by
  have h := serializer_shape initialNodes []
  refine ⟨h.1, ?_⟩
  exact h.2.2 initialNodes.headI (by decide) (CfgValue.s "Document Input") (by decide)

/-- Claim C10: serialization is deterministic - two runs on equal node
and edge sequences produce structurally equal payloads - and the payload
lists the nodes and edges in the order of the state sequences, which is
creation order: addNode appends the new node at the end, and a connect
either appends the new edge at the end or leaves the edges unchanged. -/
theorem serializer_deterministic_ordered
    (n1 n2 : List FlowNode) (e1 e2 : List FlowEdge) (st : CanvasState) (c : Connection)
    (hn : n1 = n2) (he : e1 = e2) :
    flowToExecute n1 e1 = flowToExecute n2 e2
    ∧ (flowToExecute n1 e1).nodes.map (fun sn => sn.id) = n1.map (fun n => n.id)
    ∧ (flowToExecute n1 e1).edges.map (fun se => se.id) = e1.map (fun e => e.id)
    ∧ (∀ (ntype label : String) (rx ry : ℚ),
        (addNode st ntype label rx ry).nodes
          = st.nodes ++ [mkNewNode st.idCounter ntype label rx ry])
    ∧ ((connectState st c).edges = st.edges
       ∨ (connectState st c).edges = st.edges ++ [edgeOfConnection c]) := by
  subst hn
  subst he
  refine ⟨rfl, ?_, ?_, fun _ _ _ _ => rfl, ?_⟩
  · show (n1.map serializeNode).map _ = _
    rw [List.map_map]
    rfl
  · show (e1.map serializeEdge).map _ = _
    rw [List.map_map]
    rfl
  · show onConnect c st.edges = st.edges ∨ onConnect c st.edges = st.edges ++ [edgeOfConnection c]
    unfold onConnect
    by_cases h1 : (optFalsy c.source || optFalsy c.target) = true
    · simp [h1]
    · simp only [Bool.not_eq_true] at h1
      by_cases h2 : connectionExists (edgeOfConnection c) st.edges = true
      · simp [h1, h2]
      · simp only [Bool.not_eq_true] at h2
        simp [h1, h2]

theorem serializer_deterministic_ordered_witness :
    flowToExecute initialNodes [] = flowToExecute initialNodes []
    ∧ (flowToExecute initialNodes []).nodes.map (fun sn => sn.id)
        = initialNodes.map (fun n => n.id) := by
  have h := serializer_deterministic_ordered initialNodes initialNodes [] [] initialCanvasState
    { source := none, target := none, sourceHandle := none, targetHandle := none } rfl rfl
  exact ⟨h.1, h.2.1⟩

/-- The state after adding one chunk node (which has both an incoming
and an outgoing socket) to the initial canvas. -/
def chunkNodeState : CanvasState :=
  addNode initialCanvasState "chunkNode" "Chunk" 0 0

/-- Claim C2 counterexample: connecting the chunk node dndnode_0 to
itself is not rejected - onConnect appends a self-loop edge, so the edge
collection does not stay unchanged and no InvalidConnection failure
exists in the code. -/
theorem connect_self_adds_edge :
    (connectState chunkNodeState
       { source := some "dndnode_0", target := some "dndnode_0",
         sourceHandle := none, targetHandle := none }).edges
      = [{ id := "reactflow__edge-dndnode_0-dndnode_0", source := "dndnode_0",
           target := "dndnode_0", sourceHandle := none, targetHandle := none,
           type := some "smoothstep", animated := some true,
           markerEnd := some "arrowclosed" }]
    ∧ (connectState chunkNodeState
       { source := some "dndnode_0", target := some "dndnode_0",
         sourceHandle := none, targetHandle := none }).edges
      ≠ chunkNodeState.edges := by
  constructor
  · decide
  · decide

/-- Claim C2 (amended): onConnect validates nothing about the graph.  A
connection whose source or target is null or empty is ignored with the
edges unchanged, as is a connection equivalent to an existing edge;
every other connection - self-connections and endpoint ids absent from
the node collection included - appends a new styled edge at the end. -/
theorem connect_no_validation (st : CanvasState) (c : Connection) :
    ((optFalsy c.source || optFalsy c.target) = true → (connectState st c).edges = st.edges)
    ∧ ((optFalsy c.source || optFalsy c.target) = false →
        connectionExists (edgeOfConnection c) st.edges = true →
        (connectState st c).edges = st.edges)
    ∧ ((optFalsy c.source || optFalsy c.target) = false →
        connectionExists (edgeOfConnection c) st.edges = false →
        (connectState st c).edges = st.edges ++ [edgeOfConnection c]) := by
  refine ⟨?_, ?_, ?_⟩
  · intro h
    show onConnect c st.edges = st.edges
    simp [onConnect, h]
  · intro h1 h2
    show onConnect c st.edges = st.edges
    simp [onConnect, h1, h2]
  · intro h1 h2
    show onConnect c st.edges = st.edges ++ [edgeOfConnection c]
    simp [onConnect, h1, h2]

theorem connect_no_validation_witness :
    (connectState chunkNodeState
       { source := none, target := some "dndnode_0",
         sourceHandle := none, targetHandle := none }).edges = chunkNodeState.edges
    ∧ (connectState chunkNodeState
       { source := some "ghost-source", target := some "ghost-target",
         sourceHandle := none, targetHandle := none }).edges
      = chunkNodeState.edges ++ [edgeOfConnection
          { source := some "ghost-source", target := some "ghost-target",
            sourceHandle := none, targetHandle := none }] := by
  constructor
  · exact (connect_no_validation chunkNodeState _).1 (by decide)
  · exact (connect_no_validation chunkNodeState _).2.2 (by decide) (by decide)

/-- A persisted slot whose three properties are truthy but are not graph
shaped at all. -/
def illShapedSlot : StorageSlot :=
  some (some (JValue.jobj
    [("nodes", JValue.jstr "not-an-array"),
     ("edges", JValue.jstr "also-not-an-array"),
     ("viewport", JValue.jstr "nope")]))

/-- Claim C3 counterexample: the load validation is truthiness only.  A
stored value whose nodes, edges and viewport are truthy non-graph values
(strings here) is accepted rather than reported corrupt, although its
nodes value is not an array of nodes (the typed decoder rejects it). -/
theorem load_accepts_ill_shaped :
    loadFlow illShapedSlot
      = LoadOutcome.loaded (JValue.jstr "not-an-array") (JValue.jstr "also-not-an-array")
          (JValue.jstr "nope")
    ∧ decodeNodes (JValue.jstr "not-an-array") = none := by
  exact ⟨rfl, rfl⟩

/-- Claim C3 (amended): load reports a missing slot, fails on an
unparseable slot, and fails whenever the parsed value or one of its
nodes, edges or viewport properties is missing or falsy - in particular
on the slot holding only nodes bound to the string not-an-array; in
every failure case the component state, and with it the in-memory nodes,
edges and viewport, is returned exactly unchanged, so no partial update
is observable.  The accepted values are however only checked for
truthiness, not for graph shape. -/
theorem load_failure_modes (slot : StorageSlot) (st : CanvasState) :
    loadFlow none = LoadOutcome.noSaved
    ∧ loadFlow (some none) = LoadOutcome.loadError
    ∧ loadFlow (some (some (JValue.jobj [("nodes", JValue.jstr "not-an-array")])))
        = LoadOutcome.loadError
    ∧ ((loadFlow slot = LoadOutcome.noSaved ∨ loadFlow slot = LoadOutcome.loadError) →
        loadFlowWrapper slot st = some st) := by
  refine ⟨rfl, rfl, rfl, ?_⟩
  intro h
  cases h with
  | inl h => simp [loadFlowWrapper, h]
  | inr h => simp [loadFlowWrapper, h]

theorem load_failure_modes_witness :
    loadFlowWrapper (some none) initialCanvasState = some initialCanvasState
    ∧ loadFlowWrapper
        (some (some (JValue.jobj [("nodes", JValue.jstr "not-an-array")])))
        initialCanvasState = some initialCanvasState := by
  have h1 := load_failure_modes (some none) initialCanvasState
  have h2 := load_failure_modes
    (some (some (JValue.jobj [("nodes", JValue.jstr "not-an-array")]))) initialCanvasState
  exact ⟨h1.2.2.2 (Or.inr h1.2.1), h2.2.2.2 (Or.inr h2.2.2.1)⟩

/-- A configuration value JSON serialization preserves exactly:
stringify drops undefined-valued keys and turns NaN and the infinities
into null; every other value round-trips. -/
def CfgValue.jsonExact : CfgValue → Bool
  | .undefv => false
  | .n JSNum.nan => false
  | .n (JSNum.inf _) => false
  | _ => true

theorem isUndefJ_cfgValueToJ (v : CfgValue) (h : v ≠ CfgValue.undefv) :
    isUndefJ (cfgValueToJ v) = false := by
  cases v with
  | undefv => exact absurd rfl h
  | nullv => rfl
  | b _ => rfl
  | n m => cases m <;> rfl
  | s _ => rfl

theorem decodeCfgValue_roundtrip (v : CfgValue) (h : v.jsonExact = true) :
    decodeCfgValue (cfgValueToJ v) = some v := by
  cases v with
  | undefv => simp [CfgValue.jsonExact] at h
  | nullv => rfl
  | b _ => rfl
  | n m =>
    cases m with
    | nan => simp [CfgValue.jsonExact] at h
    | inf _ => simp [CfgValue.jsonExact] at h
    | q _ => rfl
  | s _ => rfl

theorem decodeCfgEntries_roundtrip (o : CfgObj) (h : ∀ kv ∈ o, kv.2.jsonExact = true) :
    decodeCfgEntries (dropUndefFields (o.map (fun kv => (kv.1, cfgValueToJ kv.2)))) = some o := by
  induction o with
  | nil => rfl
  | cons kv rest ih =>
    have hv := h kv (List.mem_cons_self kv rest)
    have hne : kv.2 ≠ CfgValue.undefv := by
      intro he
      rw [he] at hv
      exact absurd hv (by decide)
    have hrest := ih (fun kv2 hm => h kv2 (List.mem_cons_of_mem kv hm))
    simp only [List.map_cons, dropUndefFields, List.filter_cons, isUndefJ_cfgValueToJ kv.2 hne,
      Bool.not_false, if_true]
    simp only [dropUndefFields] at hrest
    simp [decodeCfgEntries, decodeCfgValue_roundtrip kv.2 hv, hrest]

theorem decodeData_roundtrip (o : CfgObj) (h : ∀ kv ∈ o, kv.2.jsonExact = true) :
    decodeData (cfgObjToJ o) = some (some o) := by
  simp [cfgObjToJ, decodeData, decodeCfgEntries_roundtrip o h]

theorem decodeViewport_roundtrip (vp : Viewport) :
    decodeViewport (viewportToJ vp) = some vp := by
  simp [viewportToJ, decodeViewport, jGet, List.find?, decodeRat]

theorem decodeNode_roundtrip (n : FlowNode)
    (h : ∀ o, n.data = some o → ∀ kv ∈ o, kv.2.jsonExact = true) :
    decodeNode (nodeToJ n) = some n := by
  obtain ⟨nid, ntype, pos, data, sp, tp⟩ := n
  cases data with
  | none =>
    cases ntype <;> cases sp <;> cases tp <;>
      simp [nodeToJ, decodeNode, jGet, dropUndefFields, List.filter, isUndefJ, optStrToJ,
        posToJ, decodeOptStr, decodePos, decodeRat, decodeData, List.find?]
  | some o =>
    have he := decodeCfgEntries_roundtrip o (h o rfl)
    simp only [dropUndefFields, isUndefJ] at he
    cases ntype <;> cases sp <;> cases tp <;>
      simp [nodeToJ, decodeNode, jGet, dropUndefFields, List.filter, isUndefJ, optStrToJ,
        posToJ, decodeOptStr, decodePos, decodeRat, List.find?, cfgObjToJ, decodeData,
        he]

theorem decodeEdge_roundtrip (e : FlowEdge) :
    decodeEdge (edgeToJ e) = some e := by
  obtain ⟨eid, src, tgt, sh, th, etype, anim, me⟩ := e
  cases sh <;> cases th <;> cases etype <;> cases anim <;> cases me <;>
    simp [edgeToJ, decodeEdge, jGet, dropUndefFields, List.filter, isUndefJ, optStrToJ,
      decodeHandle, decodeOptStr, decodeAnimated, decodeMarkerEnd, List.find?]

theorem decodeNodeList_roundtrip (ns : List FlowNode)
    (h : ∀ n ∈ ns, ∀ o, n.data = some o → ∀ kv ∈ o, kv.2.jsonExact = true) :
    decodeNodeList (ns.map nodeToJ) = some ns := by
  induction ns with
  | nil => rfl
  | cons n rest ih =>
    have hn := decodeNode_roundtrip n (h n (List.mem_cons_self n rest))
    have hrest := ih (fun m hm => h m (List.mem_cons_of_mem n hm))
    simp [decodeNodeList, hn, hrest]

theorem decodeEdgeList_roundtrip (es : List FlowEdge) :
    decodeEdgeList (es.map edgeToJ) = some es := by
  induction es with
  | nil => rfl
  | cons e rest ih =>
    simp [decodeEdgeList, decodeEdge_roundtrip e, ih]

/-- Every configuration value stored on every node of the state
round-trips exactly through JSON (no undefined, NaN or infinite
values). -/
def stateJsonExact (st : CanvasState) : Bool :=
  st.nodes.all (fun n => (n.data.getD []).all (fun kv => kv.2.jsonExact))

/-- Claim C5 (amended): when the reactflow instance is available and
every stored configuration value survives JSON exactly, save followed by
load restores the nodes, the edges and the viewport of the saved state
exactly - order included, so in particular up to node/edge ordering -
and leaves the rest of the component state alone. -/
theorem save_load_roundtrip (st : CanvasState) (slot : StorageSlot)
    (hinst : st.hasInstance = true) (hgood : stateJsonExact st = true) :
    loadFlowWrapper (saveFlowWrapper st slot).1 st = some st := by
  obtain ⟨nds, eds, sel, hi, vp, ex, cnt⟩ := st
  simp only [CanvasState.hasInstance] at hinst
  subst hinst
  have hgood2 : ∀ n ∈ nds, ∀ o, n.data = some o → ∀ kv ∈ o, kv.2.jsonExact = true := by
    intro n hn o ho kv hkv
    simp only [stateJsonExact, List.all_eq_true] at hgood
    have h2 := hgood n hn
    rw [ho] at h2
    simp only [Option.getD_some, List.all_eq_true] at h2
    exact h2 kv hkv
  have hload : loadFlow (some (some (flowStateToJ nds eds vp)))
      = LoadOutcome.loaded (JValue.jarr (nds.map nodeToJ))
          (JValue.jarr (eds.map edgeToJ)) (viewportToJ vp) := by
    simp [loadFlow, flowStateToJ, viewportToJ, JValue.truthy, jGet, List.find?]
  rw [show (saveFlowWrapper ⟨nds, eds, sel, true, vp, ex, cnt⟩ slot).1
      = some (some (flowStateToJ nds eds vp)) from rfl]
  rw [loadFlowWrapper, hload]
  simp [decodeNodes, decodeEdges, decodeNodeList_roundtrip nds hgood2,
    decodeEdgeList_roundtrip eds, decodeViewport_roundtrip vp]

theorem save_load_roundtrip_witness :
    loadFlowWrapper
        (saveFlowWrapper { initialCanvasState with hasInstance := true } none).1
        { initialCanvasState with hasInstance := true }
      = some { initialCanvasState with hasInstance := true } :=
  save_load_roundtrip { initialCanvasState with hasInstance := true } none rfl (by decide)


/-- The chunk-node data produced by typing abc into the max-characters
field of the Chunk form: the label plus the NaN the unguarded number
handler stores. -/
def nanChunkData : CfgObj :=
  chunkHandleNumberChange [("label", CfgValue.s "Chunk")] "chunkMaxCharacters" "abc"
/-- The chunk node of the NaN round-trip counterexample, at the position
the canvas assigned it. -/
def nanChunkNode : FlowNode :=
  { id := "dndnode_0"
    type := some "chunkNode"
    position := { x := 100, y := 50 }
    data := some nanChunkData
    sourcePosition := some "right"
    targetPosition := some "left" }


/-- A reachable canvas state holding that chunk node: initial nodes, one
added chunk node whose configuration was edited as above, reactflow
instance present. -/
def nanChunkState : CanvasState :=
  { initialCanvasState with
    nodes := initialNodes ++ [nanChunkNode]
    hasInstance := true
    idCounter := 1 }

/-- Claim C5 counterexample: save followed by load does not restore this
graph.  The NaN that the Chunk form stored has no JSON representation
and persists as null, so the loaded chunk node carries null where the
original carried NaN, and the loaded state differs from the saved one. -/
theorem save_load_roundtrip_loses_nan :
    (loadFlowWrapper (saveFlowWrapper nanChunkState none).1 nanChunkState).map
        (fun st2 => st2.nodes.map (fun n => n.data))
      = some [some [("label", CfgValue.s "Document Input")],
              some [("label", CfgValue.s "Processed Output")],
              some [("label", CfgValue.s "Chunk"), ("chunkMaxCharacters", CfgValue.nullv)]]
    ∧ loadFlowWrapper (saveFlowWrapper nanChunkState none).1 nanChunkState
        ≠ some nanChunkState
    ∧ objLookup nanChunkData "chunkMaxCharacters" = some (CfgValue.n JSNum.nan) := by
  refine ⟨by decide, by decide, by decide⟩

/-- Value of a digit string appended to an accumulator, reading most
significant digit first. -/
def charsVal (a : Nat) (l : List Char) : Nat :=
  l.foldl (fun x c => x * 10 + (c.toNat - 48)) a

theorem charsVal_cons (a : Nat) (c : Char) (l : List Char) :
    charsVal a (c :: l) = charsVal (a * 10 + (c.toNat - 48)) l := rfl

theorem digitChar_val (d : Nat) (h : d < 10) : (Nat.digitChar d).toNat - 48 = d := by
  interval_cases d <;> decide

theorem toDigitsCore_charsVal (f : Nat) :
    ∀ (n : Nat) (acc : List Char), n < f →
      charsVal 0 (Nat.toDigitsCore 10 f n acc) = charsVal n acc := by
  induction f with
  | zero => exact fun n acc h => absurd h (Nat.not_lt_zero n)
  | succ f ih =>
    intro n acc h
    by_cases h0 : n / 10 = 0
    · simp only [Nat.toDigitsCore, h0, if_true]
      rw [charsVal_cons, digitChar_val (n % 10) (by omega)]
      congr 1
      omega
    · simp only [Nat.toDigitsCore, h0, if_false]
      rw [ih (n / 10) _ (by omega), charsVal_cons, digitChar_val (n % 10) (by omega)]
      congr 1
      omega

theorem repr_charsVal (n : Nat) : charsVal 0 (Nat.repr n).data = n := by
  show charsVal 0 ((Nat.toDigits 10 n).asString).data = n
  have h1 : ((Nat.toDigits 10 n).asString).data = Nat.toDigits 10 n := rfl
  rw [h1]
  show charsVal 0 (Nat.toDigitsCore 10 (n + 1) n []) = n
  rw [toDigitsCore_charsVal (n + 1) n [] (Nat.lt_succ_self n)]
  rfl

theorem natRepr_injective (m n : Nat) (h : Nat.repr m = Nat.repr n) : m = n := by
  have h2 := congrArg (fun s => charsVal 0 s.data) h
  simpa [repr_charsVal] using h2

theorem getIdStr_injective (m n : Nat) (h : getIdStr m = getIdStr n) : m = n := by
  apply natRepr_injective
  have h2 := congrArg String.data h
  simp only [getIdStr, String.data_append] at h2
  apply String.ext
  exact List.append_cancel_left h2

theorem getIdStr_ne_input (k : Nat) : getIdStr k ≠ "input-1" := by
  intro h
  have h2 := congrArg String.data h
  simp only [getIdStr, String.data_append] at h2
  simp at h2

theorem getIdStr_ne_output (k : Nat) : getIdStr k ≠ "output-1" := by
  intro h
  have h2 := congrArg String.data h
  simp only [getIdStr, String.data_append] at h2
  simp at h2

/-- The id discipline the canvas maintains while only addNode touches
the nodes: every node id is one of the two initial ids or a counter id
below the current counter, and the ids are pairwise distinct. -/
def idsOk (st : CanvasState) : Prop :=
  (∀ n ∈ st.nodes, n.id = "input-1" ∨ n.id = "output-1" ∨ ∃ k < st.idCounter, n.id = getIdStr k)
  ∧ (st.nodes.map (fun n => n.id)).Nodup

theorem idsOk_initial : idsOk initialCanvasState := by
  constructor
  · intro n hn
    fin_cases hn
    · exact Or.inl rfl
    · exact Or.inr (Or.inl rfl)
  · decide

theorem addNode_fresh_of_idsOk (st : CanvasState) (h : idsOk st)
    (ntype label : String) (rx ry : ℚ) :
    getIdStr st.idCounter ∉ st.nodes.map (fun n => n.id)
    ∧ idsOk (addNode st ntype label rx ry) := by
  have hfresh : getIdStr st.idCounter ∉ st.nodes.map (fun n => n.id) := by
    intro hmem
    rcases List.mem_map.1 hmem with ⟨n, hn, hid⟩
    rcases h.1 n hn with h1 | h1 | ⟨k, hk, h1⟩
    · exact getIdStr_ne_input st.idCounter (hid ▸ h1)
    · exact getIdStr_ne_output st.idCounter (hid ▸ h1)
    · have := getIdStr_injective k st.idCounter (h1 ▸ hid)
      omega
  refine ⟨hfresh, ?_, ?_⟩
  · intro n hn
    rcases List.mem_append.1 hn with h1 | h1
    · rcases h.1 n h1 with h2 | h2 | ⟨k, hk, h2⟩
      · exact Or.inl h2
      · exact Or.inr (Or.inl h2)
      · exact Or.inr (Or.inr ⟨k, by simp [addNode]; omega, h2⟩)
    · rcases List.mem_singleton.1 h1 with rfl
      refine Or.inr (Or.inr ⟨st.idCounter, ?_, rfl⟩)
      simp [addNode]
  · show ((st.nodes ++ [mkNewNode st.idCounter ntype label rx ry]).map (fun n => n.id)).Nodup
    rw [List.map_append]
    rw [List.nodup_append]
    refine ⟨h.2, List.nodup_singleton _, ?_⟩
    intro a ha hb
    rcases List.mem_singleton.1 hb with rfl
    exact hfresh ha

theorem applyAddNodes_idsOk (calls : List AddNodeCall) :
    ∀ st : CanvasState, idsOk st → idsOk (applyAddNodes st calls) := by
  induction calls with
  | nil => exact fun st h => h
  | cons c rest ih =>
    intro st h
    exact ih _ (addNode_fresh_of_idsOk st h c.ntype c.label c.rx c.ry).2

/-- Claim C4 (amended): as long as the graph only grows through addNode,
every id is fresh: after any sequence of addNode calls from the initial
state the node ids are pairwise distinct, and the id handed to the next
addNode is not yet present.  (A load of a flow persisted by an earlier
session breaks this: the module counter is not re-seeded from the loaded
ids, see the counterexample.) -/
theorem addNode_ids_fresh_without_load (calls : List AddNodeCall)
    (ntype label : String) (rx ry : ℚ) :
    (((applyAddNodes initialCanvasState calls).nodes.map (fun n => n.id)).Nodup)
    ∧ (mkNewNode (applyAddNodes initialCanvasState calls).idCounter ntype label rx ry).id
        ∉ (applyAddNodes initialCanvasState calls).nodes.map (fun n => n.id) := by
  have h := applyAddNodes_idsOk calls initialCanvasState idsOk_initial
  exact ⟨h.2,
    (addNode_fresh_of_idsOk (applyAddNodes initialCanvasState calls) h ntype label rx ry).1⟩

/-- A canvas state persisted by an earlier browser session: the user
added one partition node (which received the counter id dndnode_0) and
saved the flow. -/
def staleSessionState : CanvasState :=
  { initialCanvasState with
    nodes := initialNodes ++
      [{ id := getIdStr 0
         type := some "partitionNode"
         position := { x := 180, y := 90 }
         data := some [("label", CfgValue.s "Partition")]
         sourcePosition := some "right"
         targetPosition := some "left" }]
    hasInstance := true
    idCounter := 1 }

/-- The localStorage slot that session left behind. -/
def staleSlot : StorageSlot := (saveFlowWrapper staleSessionState none).1

/-- Claim C4 counterexample: in a fresh page (module counter back at
zero) loading the persisted flow restores a node with id dndnode_0 while
the counter stays 0, so the very next addNode returns a node whose id
dndnode_0 already belongs to a restored node - two nodes now share an
id. -/
theorem addNode_id_collision_after_load :
    (loadFlowWrapper staleSlot initialCanvasState).map
        (fun st => (addNode st "chunkNode" "Chunk" 0 0).nodes.map (fun n => n.id))
      = some ["input-1", "output-1", "dndnode_0", "dndnode_0"]
    ∧ (loadFlowWrapper staleSlot initialCanvasState).map
        (fun st => decide (getIdStr st.idCounter ∈ st.nodes.map (fun n => n.id)))
      = some true := by
  constructor
  · decide
  · decide
